import Mathlib

/-!
Verification of the DraftEdge scrapers (src/battorvikScraper.py, src/nbaScraper.py).

The development shallowly embeds the parts of the two scrapers that carry the
design content: the row extraction (positional cell mapping for Bart Torvik,
two-table join plus name/team splitting for the NBA source), the schema
reconciliation and year-scoped merge (`append_to_excel` of both classes), and
the bounded "load more" pagination loops.  Pandas DataFrames are modelled as a
column-name list together with positionally aligned rows of cells; fallible
extraction returns `Except`.
-/

/-- Scalar value held in one DataFrame cell: `null` models pandas `None`/`NaN`,
`str` a scraped text, `int` an integer (the `Year` values). -/
inductive Cell where
  | null : Cell
  | str (s : String) : Cell
  | int (n : Int) : Cell
deriving DecidableEq, Repr

/-- Model of a pandas DataFrame: the ordered column names and the data rows,
each row holding its cells positionally (row `i`, column `j` at `rows[i][j]`). -/
structure DF where
  cols : List String
  rows : List (List Cell)
deriving DecidableEq, Repr

/-- Position of column `c` in the column list (length of the list if absent),
the model of locating a pandas column label. -/
def colIdx : List String → String → Nat
  | [], _ => 0
  | c' :: cs, c => if c' = c then 0 else colIdx cs c + 1

/-- Value of row `r` at column `c` given the column list `cols`; `null` when the
column is absent or the row is too short. -/
def rowGetC (cols : List String) (r : List Cell) (c : String) : Cell :=
  r.getD (colIdx cols c) Cell.null

/-- Rectangularity of a frame: every row has exactly one cell per column
(always true of a real pandas DataFrame). -/
def DF.WF (df : DF) : Prop := ∀ r ∈ df.rows, r.length = df.cols.length

/-- Pandas inequality `series != scalar` on cells: comparisons against
`NaN`/`None` are `True`, otherwise plain disequality. -/
def cellNe : Cell → Cell → Bool
  | Cell.null, _ => true
  | _, Cell.null => true
  | a, b => decide (a ≠ b)

/-- Model of `df[col] = None` for a possibly missing column: append the column
with an all-null cell on every row (no-op when the column exists). -/
def addCol (df : DF) (c : String) : DF :=
  if df.cols.contains c then df
  else ⟨df.cols ++ [c], df.rows.map (fun r => r ++ [Cell.null])⟩

/-- Model of `for col in cs: if col not in df.columns: df[col] = None`. -/
def ensureCols (df : DF) (cs : List String) : DF := cs.foldl addCol df

/-- Model of `df[order]`: select (and reorder) columns by name; callers ensure
the requested names exist. -/
def selectCols (df : DF) (order : List String) : DF :=
  ⟨order, df.rows.map (fun r => order.map (fun c => rowGetC df.cols r c))⟩

/-- Model of `df[df['Year'] != y]`. -/
def filterYearNe (df : DF) (y : Cell) : DF :=
  ⟨df.cols, df.rows.filter (fun r => cellNe (rowGetC df.cols r "Year") y)⟩

/-- Model of `pd.concat([a, b], ignore_index=True)` for frames sharing one
column order. -/
def concatRows (a b : DF) : DF := ⟨a.cols, a.rows ++ b.rows⟩

/-- Pandas `df.empty` (an axis of length zero), which both scrapers combine
with `len(df.columns) == 0` when deciding to start fresh. -/
def pdEmpty (df : DF) : Bool := df.rows.isEmpty || df.cols.isEmpty

/-- Model of `df['Year'].iloc[0] if len(df) > 0 else None`, guarded by
`'Year' in df.columns`. -/
def yearToAppend (df : DF) : Option Cell :=
  if df.cols.contains "Year" then
    match df.rows with
    | [] => none
    | r :: _ => some (rowGetC df.cols r "Year")
  else none

/-- The curated column whitelist `self.desired_columns` of `BartTorvikScraper`. -/
def btDesired : List String :=
  ["Rk", "Player", "Class", "Team", "Conf", "Min%", "PRPG!", "BPM", "ORtg",
   "Usg", "eFG", "TS", "OR", "DR", "Ast", "TO", "Blk", "Stl", "FTR", "2P",
   "3P/100", "3P"]

/-- The whitelist followed by `Year` (`desired_cols_with_year`). -/
def btColsYear : List String := btDesired ++ ["Year"]

/-- Normalisation applied in `BartTorvikScraper.append_to_excel` to the new and
the persisted frame alike: add any missing whitelist column as null, then keep
exactly the whitelisted columns in their fixed order. -/
def bt_normalize (df : DF) : DF := selectCols (ensureCols df btColsYear) btColsYear

/-- Model of `if year_to_append is not None: existing_df = existing_df[existing_df['Year'] != year_to_append]`. -/
def dropYear (ex : DF) (y : Option Cell) : DF :=
  match y with
  | none => ex
  | some y => filterYearNe ex y

/-- `BartTorvikScraper.append_to_excel`: the frame written back to the store,
given the previously persisted frame (`none` when the file is absent or
unreadable) and the freshly scraped frame. -/
def bt_append (existing : Option DF) (df0 : DF) : DF :=
  let df := bt_normalize df0
  match existing with
  | none => df
  | some ex0 =>
    if pdEmpty ex0 then df
    else concatRows (dropYear (bt_normalize ex0) (yearToAppend df)) df

/-- The fixed priority columns of `NBAScraper.append_to_excel`. -/
def prioCols : List String := ["RK", "Player", "Team"]

/-- Python `sorted` on a list of strings (lexicographic by code point). -/
def sortStrings (l : List String) : List String :=
  List.insertionSort (fun a b => a ≤ b) l

/-- Column order built by `NBAScraper.append_to_excel` from a column pool `u`:
priority columns first, remaining stats sorted, `Year` last, all filtered to
the names actually present in `u`. -/
def nbaOrder (u : List String) : List String :=
  let other := sortStrings (u.filter (fun c => !(prioCols.contains c) && c != "Year"))
  ((prioCols ++ other) ++ (if u.contains "Year" then ["Year"] else [])).filter
    (fun c => u.contains c)

/-- Merge branch of `NBAScraper.append_to_excel` (a non-empty frame was read
from the store): union the column sets, pad both sides with nulls, reorder both
to the derived order, drop the rerun year from the existing rows, concatenate. -/
def nbaMerge (ex df : DF) : DF :=
  let all := sortStrings ((df.cols ++ ex.cols).dedup)
  let df' := ensureCols df all
  let ex' := ensureCols ex all
  let order := nbaOrder all
  let df2 := selectCols df' order
  concatRows (dropYear (selectCols ex' order) (yearToAppend df2)) df2

/-- Fresh branch of `NBAScraper.append_to_excel` (no usable persisted frame):
reorder the new frame alone. -/
def nbaFresh (df : DF) : DF := selectCols df (nbaOrder df.cols)

/-- `NBAScraper.append_to_excel`: `none` models the early return on an empty
frame (nothing is written), otherwise the frame written to the store. -/
def nba_append (existing : Option DF) (df : DF) : Option DF :=
  if pdEmpty df then none
  else
    match existing with
    | none => some (nbaFresh df)
    | some ex => if pdEmpty ex then some (nbaFresh df) else some (nbaMerge ex df)

/-- Empty row dictionary (`row_data = {}`). -/
def recNew : List (String × String) := []

/-- Python dict assignment `r[k] = v`: overwrite in place when the key exists,
otherwise append (insertion order preserved). -/
def recSet (r : List (String × String)) (k v : String) : List (String × String) :=
  if r.any (fun p => p.1 = k) then r.map (fun p => if p.1 = k then (k, v) else p)
  else r ++ [(k, v)]

/-- Value of key `c` in a row dictionary, as a cell (`null` when absent, the
way `pd.DataFrame(list_of_dicts)` fills missing keys). -/
def lookupStr (r : List (String × String)) (c : String) : Cell :=
  match r.lookup c with
  | some v => Cell.str v
  | none => Cell.null

/-- Column list of `pd.DataFrame(list_of_dicts)`: the keys in order of first
appearance across the dictionaries. -/
def recordKeys (recs : List (List (String × String))) : List String :=
  ((recs.map (fun r => r.map Prod.fst)).flatten).dedup

/-- Model of `pd.DataFrame(list_of_dicts)`. -/
def dfOfRecords (recs : List (List (String × String))) : DF :=
  let cols := recordKeys recs
  ⟨cols, recs.map (fun r => cols.map (fun c => lookupStr r c))⟩

/-- Model of `df['Year'] = year`: overwrite the column when present, otherwise
append it. -/
def setYear (df : DF) (y : Int) : DF :=
  if df.cols.contains "Year" then
    ⟨df.cols, df.rows.map (fun r => r.set (colIdx df.cols "Year") (Cell.int y))⟩
  else ⟨df.cols ++ ["Year"], df.rows.map (fun r => r ++ [Cell.int y])⟩

/-- The data-cell positions read by `BartTorvikScraper.scrape_data` and the
canonical field each one feeds, in source order (each entry models one
`if len(cells) > k: row_data[name] = cells[k].text.strip()`). -/
def btGuards : List (Nat × String) :=
  [(0, "Rk"), (2, "Class"), (4, "Player"), (6, "Team"), (7, "Conf"),
   (10, "Min%"), (11, "PRPG!"), (13, "BPM"), (16, "ORtg"), (18, "Usg"),
   (19, "eFG"), (20, "TS"), (21, "OR"), (22, "DR"), (23, "Ast"), (24, "TO"),
   (26, "Blk"), (27, "Stl"), (28, "FTR"), (39, "2P"), (41, "3P/100"),
   (43, "3P")]

/-- One data row of the Bart Torvik table turned into a row dictionary. -/
def bt_row_data (cells : List String) : List (String × String) :=
  btGuards.foldl
    (fun r kn =>
      if kn.1 < cells.length then recSet r kn.2 ((cells.getD kn.1 "").trim) else r)
    recNew

/-- Bart Torvik page as seen by extraction: the tables, each a list of rows,
each row its `td` cell texts. -/
structure BtDoc where
  tables : List (List (List String))

/-- `BartTorvikScraper.scrape_data` after pagination: structural checks, the
per-row positional mapping (rows with fewer than 20 cells skipped), whitelist
selection and the year stamp. -/
def bt_scrape (doc : BtDoc) (year : Int) : Except String DF :=
  if doc.tables.length < 2 then Except.error "Player stats table not found"
  else
    let rows := doc.tables.getD 1 []
    if rows.length < 2 then Except.error "No data rows found in table"
    else
      let data := (rows.drop 1).filterMap
        (fun cells => if cells.length < 20 then none else some (bt_row_data cells))
      let df := dfOfRecords data
      let final := btDesired.filter (fun c => df.cols.contains c)
      Except.ok (setYear (selectCols df final) year)

/-- ASCII uppercase letter, the `[A-Z]` character class. -/
def isUpperCh (c : Char) : Bool := decide ('A' ≤ c) && decide (c ≤ 'Z')

/-- Whether `.+?` can match this text: Python `.` matches anything except a
newline. -/
def noNewline (l : List Char) : Bool := l.all (fun c => c != '\n')

/-- Full match of `[A-Z]{2,4}`. -/
def upRun24 (t : List Char) : Bool :=
  decide (2 ≤ t.length) && decide (t.length ≤ 4) && t.all isUpperCh

/-- Split a character list on `'/'` (the separators themselves dropped). -/
def splitSlash : List Char → List (List Char)
  | [] => [[]]
  | c :: rest =>
    match splitSlash rest with
    | [] => [[]]
    | h :: t => if c = '/' then [] :: h :: t else (c :: h) :: t

/-- Full match of `[A-Z]{2,4}(?:/[A-Z]{2,4})+`: at least two slash-joined
uppercase runs of length 2 to 4. -/
def slashTeam (t : List Char) : Bool :=
  let parts := splitSlash t
  decide (2 ≤ parts.length) && parts.all upRun24

/-- Whether `[A-Z]{2,4}` can start matching here (two uppercase letters
available). -/
def upStart2 : List Char → Bool
  | a :: b :: _ => isUpperCh a && isUpperCh b
  | _ => false

/-- `re.match(r'^(.+?)([A-Z]{2,4}(?:/[A-Z]{2,4})+)$', s)`: the lazy `.+?`
yields the shortest non-empty newline-free prefix whose entire remainder is a
slash-joined team list; the two groups are returned. -/
def m1 (cs : List Char) : Option (List Char × List Char) :=
  (List.range cs.length).findSome? (fun i =>
    if decide (0 < i) && noNewline (cs.take i) && slashTeam (cs.drop i) then
      some (cs.take i, cs.drop i)
    else none)

/-- `re.match(r'^(.+?)([A-Z]{2,4})', s)` followed by
`team = name_text[len(player_name):]`: the shortest non-empty newline-free
prefix followed by at least two uppercase letters; the prefix and the whole
remainder are returned. -/
def m2 (cs : List Char) : Option (List Char × List Char) :=
  (List.range cs.length).findSome? (fun i =>
    if decide (0 < i) && noNewline (cs.take i) && upStart2 (cs.drop i) then
      some (cs.take i, cs.drop i)
    else none)

/-- `re.match(r'^(.+?)([A-Z]{2,4})$', s)`: the shortest non-empty newline-free
prefix whose entire remainder is one uppercase run of length 2 to 4. -/
def m3 (cs : List Char) : Option (List Char × List Char) :=
  (List.range cs.length).findSome? (fun i =>
    if decide (0 < i) && noNewline (cs.take i) && upRun24 (cs.drop i) then
      some (cs.take i, cs.drop i)
    else none)

/-- Core of `NBAScraper.extract_player_name_and_team` on character lists. -/
def extractPT (cs : List Char) : List Char × List Char :=
  if cs.contains '/' then
    match m1 cs with
    | some pt => pt
    | none =>
      match m2 cs with
      | some pt => pt
      | none => (cs, [])
  else
    match m3 cs with
    | some pt => pt
    | none => (cs, [])

/-- `NBAScraper.extract_player_name_and_team`. -/
def extract_player_name_and_team (s : String) : String × String :=
  let pt := extractPT s.data
  (String.mk pt.1, String.mk pt.2)

/-- One ESPN table: the `thead` cell texts and the `tbody` rows of `td` texts. -/
structure NbaTable where
  headers : List String
  body : List (List String)

/-- ESPN stats page as seen by extraction. -/
structure NbaDoc where
  tables : List NbaTable

/-- Placeholder table (never used on the checked path). -/
def emptyNbaTable : NbaTable := ⟨[], []⟩

/-- `NBAScraper.scrape_data` after pagination: requires two tables, joins the
name table and the stats table by row index over the shorter length, splits the
combined name cell, maps stats cells to header labels, stamps the year. -/
def nba_scrape (doc : NbaDoc) (year : Int) : Except String DF :=
  if doc.tables.length < 2 then
    Except.error "Expected 2 tables"
  else
    let nameT := doc.tables.getD 0 emptyNbaTable
    let statsT := doc.tables.getD 1 emptyNbaTable
    let headers := statsT.headers.map (fun h => h.trim)
    let n := min nameT.body.length statsT.body.length
    let data := (List.range n).filterMap (fun i =>
      let nameCells := nameT.body.getD i []
      if nameCells.length < 2 then none
      else
        let rk := (nameCells.getD 0 "").trim
        let pt := extract_player_name_and_team ((nameCells.getD 1 "").trim)
        let statsCells := statsT.body.getD i []
        if statsCells.length < headers.length then none
        else
          some (headers.enum.foldl
            (fun r jh =>
              if jh.1 < statsCells.length then
                recSet r jh.2 ((statsCells.getD jh.1 "").trim)
              else r)
            (recSet (recSet (recSet recNew "RK" rk) "Player" pt.1) "Team" pt.2)))
    Except.ok (setYear (dfOfRecords data) year)

/-- Bart Torvik "Show 100 more" loop: `clickable k` tells whether the affordance
is found and clickable after `k` clicks; the loop clicks while found, up to the
fuel bound, returning the click count. -/
def btLoop (clickable : Nat → Bool) : Nat → Nat → Nat
  | 0, clicks => clicks
  | fuel + 1, clicks =>
    if clickable clicks then btLoop clickable fuel (clicks + 1) else clicks

/-- The Bart Torvik pagination with its hard bound `max_clicks = 30`. -/
def bt_paginate (clickable : Nat → Bool) : Nat := btLoop clickable 30 0

/-- ESPN page state for pagination: after `k` clicks, whether "Show More" is
still clickable and how many rows are rendered. -/
structure NbaPage where
  clickable : Nat → Bool
  rowCount : Nat → Nat

/-- ESPN "Show More" loop: stop when the affordance disappears, when the row
count fails to grow across a click, or when the fuel bound is hit. -/
def nbaLoop (p : NbaPage) : Nat → Nat → Nat
  | 0, clicks => clicks
  | fuel + 1, clicks =>
    if p.clickable clicks then
      if p.rowCount (clicks + 1) = p.rowCount clicks then clicks + 1
      else nbaLoop p fuel (clicks + 1)
    else clicks

/-- The ESPN pagination with its hard bound `max_clicks = 20`. -/
def nba_paginate (p : NbaPage) : Nat := nbaLoop p 20 0

/-- Column order as worded by the specification for source B (refinement
reference, following the spec text rather than the code): the priority names
`RK`, `Player`, `Team`, then the remaining names of the union in lexical
order, then `Year` last. -/
def nbaOrderSpec (u : List String) : List String :=
  ["RK", "Player", "Team"] ++
    sortStrings (u.dedup.filter
      (fun c => !(["RK", "Player", "Team"].contains c) && c != "Year")) ++
    ["Year"]

/-- The claim-side reading of "ends in a run of 2 to 4 uppercase letters"
(refinement reference, following the claim's wording rather than the code). -/
def claimEndsInUpperRun (cs : List Char) : Bool :=
  [2, 3, 4].any (fun k =>
    decide (k < cs.length) && (cs.drop (cs.length - k)).all isUpperCh)

/-- Positional mapping of source A as documented by the specification
(refinement reference, following the claim's wording): the canonical field fed
by each data-cell position. -/
def btMapSpec (cells : List String) : List (String × String) :=
  [("Rk", (cells.getD 0 "").trim), ("Class", (cells.getD 2 "").trim),
   ("Player", (cells.getD 4 "").trim), ("Team", (cells.getD 6 "").trim),
   ("Conf", (cells.getD 7 "").trim), ("Min%", (cells.getD 10 "").trim),
   ("PRPG!", (cells.getD 11 "").trim), ("BPM", (cells.getD 13 "").trim),
   ("ORtg", (cells.getD 16 "").trim), ("Usg", (cells.getD 18 "").trim),
   ("eFG", (cells.getD 19 "").trim), ("TS", (cells.getD 20 "").trim),
   ("OR", (cells.getD 21 "").trim), ("DR", (cells.getD 22 "").trim),
   ("Ast", (cells.getD 23 "").trim), ("TO", (cells.getD 24 "").trim),
   ("Blk", (cells.getD 26 "").trim), ("Stl", (cells.getD 27 "").trim),
   ("FTR", (cells.getD 28 "").trim), ("2P", (cells.getD 39 "").trim),
   ("3P/100", (cells.getD 41 "").trim), ("3P", (cells.getD 43 "").trim)]

/-! ### Generic lemmas about the DataFrame model -/

theorem contains_iff_mem (l : List String) (a : String) : l.contains a = true ↔ a ∈ l :=
  List.elem_iff

theorem bt_append_some (e df : DF) :
    bt_append (some e) df =
      if pdEmpty e then bt_normalize df
      else concatRows (dropYear (bt_normalize e) (yearToAppend (bt_normalize df)))
        (bt_normalize df) := rfl

theorem nba_append_some (e df : DF) :
    nba_append (some e) df =
      if pdEmpty df then none
      else if pdEmpty e then some (nbaFresh df) else some (nbaMerge e df) := by
  unfold nba_append
  by_cases hd : pdEmpty df
  · simp only [if_pos hd]
  · simp only [if_neg hd]

theorem nba_append_none (df : DF) :
    nba_append none df = if pdEmpty df then none else some (nbaFresh df) := by
  unfold nba_append
  by_cases hd : pdEmpty df
  · simp only [if_pos hd]
  · simp only [if_neg hd]

theorem colIdx_of_not_mem : ∀ {l : List String} {c : String}, c ∉ l → colIdx l c = l.length
  | [], _, _ => rfl
  | x :: xs, c, h => by
    have hx : ¬ x = c := fun hh => h (hh ▸ List.mem_cons_self x xs)
    simp only [colIdx, if_neg hx, List.length_cons]
    rw [colIdx_of_not_mem (fun hm => h (List.mem_cons_of_mem x hm))]

theorem colIdx_lt_length {l : List String} {c : String} (h : c ∈ l) :
    colIdx l c < l.length := by
  induction l with
  | nil => cases h
  | cons x xs ih =>
    by_cases hx : x = c
    · simp [colIdx, hx]
    · rcases List.mem_cons.mp h with hc | hc
      · exact absurd hc.symm hx
      · simp only [colIdx, if_neg hx, List.length_cons]
        exact Nat.succ_lt_succ (ih hc)

theorem get_colIdx {l : List String} {c : String} (h : c ∈ l) (hlt : colIdx l c < l.length) :
    l.get ⟨colIdx l c, hlt⟩ = c := by
  induction l with
  | nil => cases h
  | cons x xs ih =>
    by_cases hx : x = c
    · simp [colIdx, hx]
    · rcases List.mem_cons.mp h with hc | hc
      · exact absurd hc.symm hx
      · simp only [colIdx, if_neg hx, List.get_cons_succ]
        exact ih hc (colIdx_lt_length hc)

theorem colIdx_get {l : List String} (hnd : l.Nodup) (i : Nat) (hi : i < l.length) :
    colIdx l (l.get ⟨i, hi⟩) = i := by
  induction l generalizing i with
  | nil => cases hi
  | cons x xs ih =>
    cases i with
    | zero => simp [colIdx]
    | succ j =>
      have hj : j < xs.length := Nat.lt_of_succ_lt_succ hi
      have hmem : xs.get ⟨j, hj⟩ ∈ xs := xs.get_mem j hj
      have hx : ¬ x = xs.get ⟨j, hj⟩ := fun hh => (List.nodup_cons.mp hnd).1 (hh ▸ hmem)
      simp only [List.get_cons_succ, colIdx, if_neg hx]
      rw [ih (List.nodup_cons.mp hnd).2 j hj]

theorem colIdx_append_of_mem {l₁ l₂ : List String} {c : String} (h : c ∈ l₁) :
    colIdx (l₁ ++ l₂) c = colIdx l₁ c := by
  induction l₁ with
  | nil => cases h
  | cons x xs ih =>
    by_cases hx : x = c
    · simp [colIdx, hx]
    · rcases List.mem_cons.mp h with hc | hc
      · exact absurd hc.symm hx
      · simp only [List.cons_append, colIdx, if_neg hx, List.append_eq, ih hc]

theorem colIdx_append_of_not_mem {l₁ l₂ : List String} {c : String} (h : c ∉ l₁) :
    colIdx (l₁ ++ l₂) c = l₁.length + colIdx l₂ c := by
  induction l₁ with
  | nil => simp [colIdx]
  | cons x xs ih =>
    have hx : ¬ x = c := fun hh => h (hh ▸ List.mem_cons_self x xs)
    simp only [List.cons_append, colIdx, if_neg hx, List.length_cons, List.append_eq,
      ih (fun hm => h (List.mem_cons_of_mem x hm))]
    omega

theorem getD_replicate_null : ∀ (n i : Nat),
    (List.replicate n Cell.null).getD i Cell.null = Cell.null
  | 0, i => by simp
  | n + 1, 0 => rfl
  | n + 1, i + 1 => getD_replicate_null n i

theorem getD_append_nulls (r : List Cell) (n i : Nat) :
    (r ++ List.replicate n Cell.null).getD i Cell.null = r.getD i Cell.null := by
  by_cases h : i < r.length
  · exact List.getD_append _ _ _ _ h
  · have h' : r.length ≤ i := Nat.le_of_not_lt h
    rw [List.getD_eq_default r _ h', List.getD_append_right _ _ _ _ h',
      getD_replicate_null]

theorem ensureCols_spec : ∀ (cs : List String) (d : DF), ∃ ext : List String,
    (ensureCols d cs).cols = d.cols ++ ext ∧
    (ensureCols d cs).rows = d.rows.map (fun r => r ++ List.replicate ext.length Cell.null)
  | [], d => ⟨[], by simp [ensureCols]⟩
  | c :: cs, d => by
    by_cases hc : c ∈ d.cols
    · have hstep : ensureCols d (c :: cs) = ensureCols d cs := by
        simp [ensureCols, addCol, hc]
      rw [hstep]; exact ensureCols_spec cs d
    · have hstep : ensureCols d (c :: cs) =
          ensureCols ⟨d.cols ++ [c], d.rows.map (fun r => r ++ [Cell.null])⟩ cs := by
        simp [ensureCols, addCol, hc]
      rw [hstep]
      obtain ⟨ext, hcols, hrows⟩ :=
        ensureCols_spec cs ⟨d.cols ++ [c], d.rows.map (fun r => r ++ [Cell.null])⟩
      refine ⟨c :: ext, ?_, ?_⟩
      · simpa [List.append_assoc] using hcols
      · rw [hrows]
        simp [List.map_map, Function.comp, List.append_assoc, List.replicate_succ]

theorem rowGetC_ensure {dcols : List String} {r : List Cell} (hlen : r.length = dcols.length)
    (ext : List String) (n : Nat) (c : String) :
    rowGetC (dcols ++ ext) (r ++ List.replicate n Cell.null) c = rowGetC dcols r c := by
  by_cases hc : c ∈ dcols
  · rw [rowGetC, rowGetC, colIdx_append_of_mem hc, getD_append_nulls]
  · rw [rowGetC, rowGetC, colIdx_append_of_not_mem hc, colIdx_of_not_mem hc,
      getD_append_nulls,
      List.getD_eq_default _ _ (by omega), List.getD_eq_default _ _ (by omega)]

theorem norm_rows {d : DF} (hwf : d.WF) (cs order : List String) :
    (selectCols (ensureCols d cs) order).rows =
      d.rows.map (fun r => order.map (fun c => rowGetC d.cols r c)) := by
  obtain ⟨ext, hcols, hrows⟩ := ensureCols_spec cs d
  simp only [selectCols, hrows, hcols, List.map_map]
  apply List.map_congr_left
  intro r hr
  simp only [Function.comp]
  exact List.map_congr_left (fun c _ => rowGetC_ensure (hwf r hr) ext _ c)

theorem getElem_colIdx {l : List String} {c : String} (h : c ∈ l)
    (hlt : colIdx l c < l.length) : l[colIdx l c] = c := by
  simpa using get_colIdx h hlt

theorem colIdx_getElem {l : List String} (hnd : l.Nodup) (i : Nat) (hi : i < l.length) :
    colIdx l (l[i]) = i := by
  simpa using colIdx_get hnd i hi

theorem rowGetC_map_order {order : List String} {c : String}
    (hc : c ∈ order) (f : String → Cell) :
    rowGetC order (order.map f) c = f c := by
  have hlt : colIdx order c < order.length := colIdx_lt_length hc
  rw [rowGetC, List.getD_eq_getElem _ _ (by simpa using hlt)]
  rw [List.getElem_map]
  congr 1
  exact getElem_colIdx hc hlt

theorem selectCols_WF (d : DF) (order : List String) : (selectCols d order).WF := by
  intro r hr
  simp only [selectCols, List.mem_map] at hr
  obtain ⟨a, _, rfl⟩ := hr
  simp [selectCols]

theorem filterYearNe_WF {d : DF} (y : Cell) (h : d.WF) : (filterYearNe d y).WF := by
  intro r hr
  exact h r (List.mem_of_mem_filter hr)

theorem concatRows_WF {a b : DF} (ha : a.WF) (hb : b.WF) (hcols : b.cols = a.cols) :
    (concatRows a b).WF := by
  intro r hr
  rcases List.mem_append.mp hr with hm | hm
  · exact ha r hm
  · rw [concatRows, ← hcols]; exact hb r hm

theorem concatRows_cols (a b : DF) : (concatRows a b).cols = a.cols := rfl

theorem dropYear_WF {d : DF} (o : Option Cell) (h : d.WF) : (dropYear d o).WF := by
  cases o
  · exact h
  · exact filterYearNe_WF _ h

theorem dropYear_cols (d : DF) (o : Option Cell) : (dropYear d o).cols = d.cols := by
  cases o <;> rfl

theorem selectCols_self {d : DF} (hnd : d.cols.Nodup) (hwf : d.WF) :
    selectCols d d.cols = d := by
  obtain ⟨cols, rows⟩ := d
  simp only [selectCols, DF.mk.injEq, true_and]
  conv_rhs => rw [← List.map_id rows]
  apply List.map_congr_left
  intro r hr
  have hlen : r.length = cols.length := hwf r hr
  apply List.ext_get (by simpa using hlen.symm)
  intro i h1 h2
  have h1c : i < cols.length := by simpa using h1
  simp only [List.get_eq_getElem, List.getElem_map]
  rw [rowGetC, colIdx_getElem hnd i h1c, List.getD_eq_getElem _ _ (by omega)]
  simp

theorem sortStrings_sorted (l : List String) :
    List.Sorted (fun a b : String => a ≤ b) (sortStrings l) :=
  List.sorted_insertionSort _ l

theorem sortStrings_perm (l : List String) : List.Perm (sortStrings l) l :=
  List.perm_insertionSort _ l

theorem sortStrings_eq_of_perm {l₁ l₂ : List String} (h : List.Perm l₁ l₂) :
    sortStrings l₁ = sortStrings l₂ :=
  List.eq_of_perm_of_sorted
    ((sortStrings_perm l₁).trans (h.trans (sortStrings_perm l₂).symm))
    (sortStrings_sorted l₁) (sortStrings_sorted l₂)

theorem sortStrings_nodup {l : List String} (h : l.Nodup) : (sortStrings l).Nodup :=
  (sortStrings_perm l).nodup_iff.mpr h

theorem mem_sortStrings {l : List String} {a : String} : a ∈ sortStrings l ↔ a ∈ l :=
  (sortStrings_perm l).mem_iff

theorem sortStrings_dedup_eq_of_mem_iff {l₁ l₂ : List String}
    (h : ∀ a, a ∈ l₁ ↔ a ∈ l₂) : sortStrings l₁.dedup = sortStrings l₂.dedup :=
  sortStrings_eq_of_perm ((List.perm_ext_iff_of_nodup l₁.nodup_dedup l₂.nodup_dedup).mpr
    (by simpa [List.mem_dedup] using h))

theorem ensureCols_eq_self : ∀ {cs : List String} {d : DF},
    (∀ c ∈ cs, c ∈ d.cols) → ensureCols d cs = d
  | [], _, _ => rfl
  | c :: cs, d, h => by
    have hc : c ∈ d.cols := h c (List.mem_cons_self c cs)
    have hstep : ensureCols d (c :: cs) = ensureCols d cs := by
      simp [ensureCols, addCol, hc]
    rw [hstep]
    exact ensureCols_eq_self (fun a ha => h a (List.mem_cons_of_mem c ha))

theorem mem_nbaOrder {u : List String} {c : String} : c ∈ nbaOrder u ↔ c ∈ u := by
  unfold nbaOrder
  simp only [List.mem_filter, List.mem_append, mem_sortStrings, contains_iff_mem]
  constructor
  · rintro ⟨-, hc⟩
    exact hc
  · intro hc
    refine ⟨?_, hc⟩
    by_cases hp : c ∈ prioCols
    · exact Or.inl (Or.inl hp)
    · by_cases hy : c = "Year"
      · subst hy
        right
        rw [if_pos hc]
        exact List.mem_singleton.mpr rfl
      · refine Or.inl (Or.inr ⟨hc, ?_⟩)
        simp only [Bool.and_eq_true, Bool.not_eq_eq_eq_not, Bool.not_true, bne_iff_ne]
        constructor
        · rcases h : prioCols.contains c with _ | _
          · rfl
          · exact absurd ((contains_iff_mem _ _).mp h) hp
        · exact hy

theorem nodup_nbaOrder {u : List String} (hu : u.Nodup) : (nbaOrder u).Nodup := by
  unfold nbaOrder
  apply List.Nodup.filter
  rw [List.nodup_append, List.nodup_append]
  refine ⟨⟨by decide, sortStrings_nodup (hu.filter _), ?_⟩, ?_, ?_⟩
  · intro a ha hs
    have := (List.mem_filter.mp (mem_sortStrings.mp hs)).2
    rw [Bool.and_eq_true, Bool.not_eq_eq_eq_not, Bool.not_true] at this
    have hpc : prioCols.contains a = true := (contains_iff_mem _ _).mpr ha
    rw [this.1] at hpc
    cases hpc
  · split
    · exact List.nodup_singleton _
    · exact List.nodup_nil
  · intro a ha hmem
    have hay : a = "Year" := by
      revert hmem
      split
      · intro hmem
        exact List.mem_singleton.mp hmem
      · intro hmem
        cases hmem
    subst hay
    rcases List.mem_append.mp ha with hp | hs
    · revert hp
      decide
    · have := (List.mem_filter.mp (mem_sortStrings.mp hs)).2
      simp at this

theorem nbaOrder_congr_perm {u v : List String} (h : List.Perm u v) :
    nbaOrder u = nbaOrder v := by
  have hc : ∀ a, u.contains a = v.contains a := by
    intro a
    rw [Bool.eq_iff_iff, contains_iff_mem, contains_iff_mem]
    exact h.mem_iff
  unfold nbaOrder
  rw [sortStrings_eq_of_perm (h.filter _), hc "Year"]
  exact List.filter_congr (fun a _ => hc a)

theorem nbaOrder_of_present {u : List String} (hRK : "RK" ∈ u) (hP : "Player" ∈ u)
    (hT : "Team" ∈ u) (hY : "Year" ∈ u) :
    nbaOrder u =
      (prioCols ++ sortStrings (u.filter (fun c => !(prioCols.contains c) && c != "Year")))
        ++ ["Year"] := by
  unfold nbaOrder
  rw [if_pos ((contains_iff_mem u "Year").mpr hY)]
  apply List.filter_eq_self.mpr
  intro a ha
  apply (contains_iff_mem u a).mpr
  rcases List.mem_append.mp ha with hpo | hyr
  · rcases List.mem_append.mp hpo with hp | ho
    · simp only [prioCols, List.mem_cons, List.not_mem_nil, or_false] at hp
      rcases hp with rfl | rfl | rfl
      · exact hRK
      · exact hP
      · exact hT
    · exact (List.mem_filter.mp (mem_sortStrings.mp ho)).1
  · rw [List.mem_singleton.mp hyr]
    exact hY

theorem btColsYear_nodup : btColsYear.Nodup := by decide

theorem bt_normalize_cols (df : DF) : (bt_normalize df).cols = btColsYear := rfl

theorem bt_normalize_WF (df : DF) : (bt_normalize df).WF := selectCols_WF _ _

theorem bt_normalize_rows {df : DF} (hwf : df.WF) :
    (bt_normalize df).rows =
      df.rows.map (fun r => btColsYear.map (fun c => rowGetC df.cols r c)) :=
  norm_rows hwf _ _

theorem bt_normalize_self {d : DF} (hcols : d.cols = btColsYear) (hwf : d.WF) :
    bt_normalize d = d := by
  unfold bt_normalize
  rw [ensureCols_eq_self (by rw [hcols]; exact fun c hc => hc), ← hcols]
  exact selectCols_self (by rw [hcols]; exact btColsYear_nodup) hwf

theorem btLoop_le (clickable : Nat → Bool) : ∀ (fuel clicks : Nat),
    btLoop clickable fuel clicks ≤ clicks + fuel
  | 0, clicks => Nat.le_refl _
  | fuel + 1, clicks => by
    unfold btLoop
    split
    · exact Nat.le_trans (btLoop_le clickable fuel (clicks + 1)) (by omega)
    · omega

theorem nbaLoop_le (p : NbaPage) : ∀ (fuel clicks : Nat),
    nbaLoop p fuel clicks ≤ clicks + fuel
  | 0, clicks => Nat.le_refl _
  | fuel + 1, clicks => by
    unfold nbaLoop
    split
    · split
      · omega
      · exact Nat.le_trans (nbaLoop_le p fuel (clicks + 1)) (by omega)
    · omega

theorem nbaLoop_stop (p : NbaPage) : ∀ (fuel clicks k : Nat), clicks ≤ k →
    k < clicks + fuel →
    (∀ j, clicks ≤ j → j < k → p.clickable j = true ∧ p.rowCount (j + 1) ≠ p.rowCount j) →
    p.clickable k = true → p.rowCount (k + 1) = p.rowCount k →
    nbaLoop p fuel clicks = k + 1
  | 0, _, _, h1, h2, _, _, _ => absurd h2 (by omega)
  | fuel + 1, clicks, k, h1, h2, hpre, hck, hstall => by
    unfold nbaLoop
    rcases Nat.eq_or_lt_of_le h1 with heq | hlt
    · subst heq
      rw [if_pos hck, if_pos hstall]
    · have hj := hpre clicks (Nat.le_refl _) hlt
      rw [if_pos hj.1, if_neg hj.2]
      exact nbaLoop_stop p fuel (clicks + 1) k hlt (by omega)
        (fun j hj1 hj2 => hpre j (by omega) hj2) hck hstall

theorem bt_append_cols (ex : Option DF) (df : DF) : (bt_append ex df).cols = btColsYear := by
  cases ex with
  | none => rfl
  | some e =>
    rw [bt_append_some]
    by_cases he : pdEmpty e
    · rw [if_pos he]
      rfl
    · rw [if_neg he]
      rw [concatRows_cols, dropYear_cols]
      rfl

/-- C5: both pagination loops are total by construction and return a click
count within the hard bound: at most 30 clicks for the Bart Torvik loop and at
most 20 for the ESPN loop, whatever the page does (including an affordance
that stays clickable forever). -/
theorem pagination_click_bound :
    (∀ clickable : Nat → Bool, bt_paginate clickable ≤ 30) ∧
    (∀ p : NbaPage, nba_paginate p ≤ 20) :=
  ⟨fun c => by simpa using btLoop_le c 30 0,
   fun p => by simpa using nbaLoop_le p 20 0⟩

/-- C6: whenever a click on the ESPN "Show More" affordance leaves the rendered
row count unchanged, the pagination loop stops right after that click, even if
the affordance is still clickable, provided the stalling click is within the
20-click bound. -/
theorem nba_pagination_stops_on_stall (p : NbaPage) (k : Nat) (hk : k + 1 ≤ 20)
    (hpre : ∀ j, j < k → p.clickable j = true ∧ p.rowCount (j + 1) ≠ p.rowCount j)
    (hck : p.clickable k = true) (hstall : p.rowCount (k + 1) = p.rowCount k) :
    nba_paginate p = k + 1 :=
  nbaLoop_stop p 20 0 k (Nat.zero_le _) (by omega) (fun j _ hj => hpre j hj) hck hstall

/-- Witness for C6: a page that keeps the button clickable forever but stops
growing at 2 rows makes the loop stop after its third click. -/
theorem nba_pagination_stops_on_stall_witness :
    nba_paginate ⟨fun _ => true, fun n => min n 2⟩ = 3 :=
  nba_pagination_stops_on_stall ⟨fun _ => true, fun n => min n 2⟩ 2 (by omega)
    (fun j hj => ⟨rfl, by simp only []; omega⟩) rfl (by decide)

/-- C10: every frame written by the Bart Torvik merge has exactly the 22
whitelisted columns followed by `Year`, in that fixed order, whatever columns
the new rows or the persisted frame carried. -/
theorem bt_merged_cols_whitelist (ex : Option DF) (df : DF) :
    (bt_append ex df).cols =
      ["Rk", "Player", "Class", "Team", "Conf", "Min%", "PRPG!", "BPM", "ORtg",
       "Usg", "eFG", "TS", "OR", "DR", "Ast", "TO", "Blk", "Stl", "FTR", "2P",
       "3P/100", "3P", "Year"] := by
  rw [bt_append_cols]
  rfl


theorem nbaMerge_WF (ex df : DF) : (nbaMerge ex df).WF := by
  unfold nbaMerge
  exact concatRows_WF (dropYear_WF _ (selectCols_WF _ _)) (selectCols_WF _ _)
    (by rw [dropYear_cols]; rfl)

theorem nbaMerge_cols (ex df : DF) :
    (nbaMerge ex df).cols = nbaOrder (sortStrings ((df.cols ++ ex.cols).dedup)) := by
  unfold nbaMerge
  rw [concatRows_cols, dropYear_cols]
  rfl

/-- C8: after either merge, the written frame is rectangular: every row holds
one (possibly null) cell for every column of the final column order, so no
record misses a column another record has. -/
theorem merged_rectangular :
    (∀ (ex : Option DF) (df : DF), (bt_append ex df).WF) ∧
    (∀ (ex : Option DF) (df : DF) (out : DF), nba_append ex df = some out → out.WF) := by
  constructor
  · intro ex df
    cases ex with
    | none => exact bt_normalize_WF df
    | some e =>
      rw [bt_append_some]
      by_cases he : pdEmpty e
      · rw [if_pos he]
        exact bt_normalize_WF df
      · rw [if_neg he]
        exact concatRows_WF (dropYear_WF _ (bt_normalize_WF e)) (bt_normalize_WF df)
          ((bt_normalize_cols df).trans
            ((bt_normalize_cols e).symm.trans (dropYear_cols _ _).symm))
  · intro ex df out h
    cases ex with
    | none =>
      unfold nba_append at h
      by_cases hd : pdEmpty df
      · rw [if_pos hd] at h
        cases h
      · rw [if_neg hd] at h
        cases h
        exact selectCols_WF _ _
    | some e =>
      rw [nba_append_some] at h
      by_cases hd : pdEmpty df
      · rw [if_pos hd] at h
        cases h
      · rw [if_neg hd] at h
        by_cases he : pdEmpty e
        · rw [if_pos he] at h
          cases h
          exact selectCols_WF _ _
        · rw [if_neg he] at h
          cases h
          exact nbaMerge_WF e df

/-- Witness for C8 at concrete frames for both sources. -/
theorem merged_rectangular_witness :
    DF.WF (bt_append none ⟨["Player"], [[Cell.str "p"]]⟩) ∧
    DF.WF (nbaFresh ⟨["RK", "Player", "Team", "Year"],
      [[Cell.str "1", Cell.str "a", Cell.str "b", Cell.int 2024]]⟩) :=
  ⟨merged_rectangular.1 none _, merged_rectangular.2 none
    ⟨["RK", "Player", "Team", "Year"],
      [[Cell.str "1", Cell.str "a", Cell.str "b", Cell.int 2024]]⟩ _ rfl⟩

set_option maxHeartbeats 2000000 in
/-- C3: a Bart Torvik data row with cells at all documented positions is mapped
to exactly the documented canonical fields: cell 0 to `Rk`, 2 to `Class`, 4 to
`Player`, 6 to `Team`, 7 to `Conf`, the offset-by-one stat block (10, 11, 13,
16, 18, 19, 20, 21, 22, 23, 24, 26, 27, 28), and the far-right shooting cells
39 to `2P`, 41 to `3P/100` and 43 to `3P`. -/
theorem bt_positional_mapping (cells : List String) (h : 43 < cells.length) :
    bt_row_data cells = btMapSpec cells := by
  have h0 : 0 < cells.length := by omega
  have h2 : 2 < cells.length := by omega
  have h4 : 4 < cells.length := by omega
  have h6 : 6 < cells.length := by omega
  have h7 : 7 < cells.length := by omega
  have h10 : 10 < cells.length := by omega
  have h11 : 11 < cells.length := by omega
  have h13 : 13 < cells.length := by omega
  have h16 : 16 < cells.length := by omega
  have h18 : 18 < cells.length := by omega
  have h19 : 19 < cells.length := by omega
  have h20 : 20 < cells.length := by omega
  have h21 : 21 < cells.length := by omega
  have h22 : 22 < cells.length := by omega
  have h23 : 23 < cells.length := by omega
  have h24 : 24 < cells.length := by omega
  have h26 : 26 < cells.length := by omega
  have h27 : 27 < cells.length := by omega
  have h28 : 28 < cells.length := by omega
  have h39 : 39 < cells.length := by omega
  have h41 : 41 < cells.length := by omega
  have h43 : 43 < cells.length := h
  simp [bt_row_data, btGuards, btMapSpec,
    if_pos h0, if_pos h2, if_pos h4, if_pos h6, if_pos h7, if_pos h10,
    if_pos h11, if_pos h13, if_pos h16, if_pos h18, if_pos h19, if_pos h20,
    if_pos h21, if_pos h22, if_pos h23, if_pos h24, if_pos h26, if_pos h27,
    if_pos h28, if_pos h39, if_pos h41, if_pos h43, recSet, recNew]

/-- Witness for C3 at a concrete 44-cell row. -/
theorem bt_positional_mapping_witness :
    bt_row_data (List.replicate 44 "x") = btMapSpec (List.replicate 44 "x") :=
  bt_positional_mapping (List.replicate 44 "x") (by decide)

/-- Counterexample for C4: a source B document with two recognizable tables but
no data rows at all (fewer than two rows in the claim's sense) makes
extraction return an empty record sequence successfully instead of failing, so
the "fails if fewer than two rows" half of the claim is false for source B. -/
theorem nba_scrape_no_row_check :
    nba_scrape ⟨[⟨[], []⟩, ⟨[], []⟩]⟩ 2024 = Except.ok ⟨["Year"], []⟩ := rfl

/-- C4 as amended: source A extraction succeeds exactly when the document has
at least two tables and the stats table at least two rows (header plus a data
row); source B extraction succeeds exactly when the document has at least two
tables — it performs no row-count check. -/
theorem extraction_structural_mismatch :
    (∀ (doc : BtDoc) (y : Int), (bt_scrape doc y).isOk = true ↔
      (2 ≤ doc.tables.length ∧ 2 ≤ (doc.tables.getD 1 []).length)) ∧
    (∀ (doc : NbaDoc) (y : Int), (nba_scrape doc y).isOk = true ↔
      2 ≤ doc.tables.length) := by
  constructor
  · intro doc y
    unfold bt_scrape
    by_cases h1 : doc.tables.length < 2
    · rw [if_pos h1]
      simp only [Except.isOk, Except.toBool, Bool.false_eq_true, false_iff]
      omega
    · rw [if_neg h1]
      by_cases h2 : (doc.tables.getD 1 []).length < 2
      · rw [if_pos h2]
        simp only [Except.isOk, Except.toBool, Bool.false_eq_true, false_iff]
        omega
      · rw [if_neg h2]
        simp only [Except.isOk, Except.toBool, true_iff]
        omega
  · intro doc y
    unfold nba_scrape
    by_cases h1 : doc.tables.length < 2
    · rw [if_pos h1]
      simp only [Except.isOk, Except.toBool, Bool.false_eq_true, false_iff]
      omega
    · rw [if_neg h1]
      simp only [Except.isOk, Except.toBool, true_iff]
      omega

theorem findSplit_eq {cs : List Char} {pt : List Char × List Char} (p : Nat → Bool)
    (h : (List.range cs.length).findSome? (fun i =>
        if p i then some (cs.take i, cs.drop i) else none) = some pt) :
    ∃ i, i < cs.length ∧ p i = true ∧ pt = (cs.take i, cs.drop i) := by
  obtain ⟨i, hmem, hf⟩ := List.exists_of_findSome?_eq_some h
  by_cases hp : p i = true
  · rw [if_pos hp] at hf
    cases hf
    exact ⟨i, List.mem_range.mp hmem, hp, rfl⟩
  · rw [if_neg hp] at hf
    cases hf

theorem extractPT_append (cs : List Char) : (extractPT cs).1 ++ (extractPT cs).2 = cs := by
  unfold extractPT
  by_cases hs : cs.contains '/'
  · rw [if_pos hs]
    cases hm1 : m1 cs with
    | some pt =>
      unfold m1 at hm1
      obtain ⟨i, -, -, rfl⟩ := findSplit_eq _ hm1
      exact List.take_append_drop i cs
    | none =>
      cases hm2 : m2 cs with
      | some pt =>
        unfold m2 at hm2
        obtain ⟨i, -, -, rfl⟩ := findSplit_eq _ hm2
        exact List.take_append_drop i cs
      | none => simp
  · rw [if_neg hs]
    cases hm3 : m3 cs with
    | some pt =>
      unfold m3 at hm3
      obtain ⟨i, -, -, rfl⟩ := findSplit_eq _ hm3
      exact List.take_append_drop i cs
    | none => simp

/-- Counterexample for C9: the input `"a/bCDx"` contains a slash but matches
neither the multi-team pattern nor ends in an uppercase run, yet the splitter
does not return the whole input with an empty team — the unanchored fallback
splits it at the interior uppercase run. -/
theorem extract_c9_counterexample :
    claimEndsInUpperRun "a/bCDx".data = false ∧ m1 "a/bCDx".data = none ∧
    extract_player_name_and_team "a/bCDx" = ("a/b", "CDx") := by
  refine ⟨by decide, by decide, by decide⟩

/-- C9 as amended: the splitter is total and lossless — player name and team
always concatenate back to the input exactly.  When the input contains no
slash and does not end in a run of 2 to 4 uppercase letters it returns the
whole input as the player with an empty team; a slash-containing input that
fails the multi-team pattern may however be split at an interior uppercase
run even when the input does not end in one. -/
theorem extract_split_lossless (s : String) :
    (extract_player_name_and_team s).1 ++ (extract_player_name_and_team s).2 = s ∧
    (('/' ∉ s.data) → claimEndsInUpperRun s.data = false →
      extract_player_name_and_team s = (s, "")) := by
  constructor
  · calc (extract_player_name_and_team s).1 ++ (extract_player_name_and_team s).2
        = String.mk ((extractPT s.data).1 ++ (extractPT s.data).2) := rfl
      _ = String.mk s.data := by rw [extractPT_append]
      _ = s := rfl
  · intro hslash hrun
    have hcont : s.data.contains '/' = false := by
      rcases h : s.data.contains '/' with _ | _
      · rfl
      · exact absurd (List.elem_iff.mp h) hslash
    have hm3 : m3 s.data = none := by
      cases hm3 : m3 s.data with
      | none => rfl
      | some pt =>
        exfalso
        unfold m3 at hm3
        obtain ⟨i, hi, hp, -⟩ := findSplit_eq _ hm3
        rw [Bool.and_eq_true, Bool.and_eq_true] at hp
        obtain ⟨⟨hpos, -⟩, hrun24⟩ := hp
        rw [decide_eq_true_eq] at hpos
        unfold upRun24 at hrun24
        rw [Bool.and_eq_true, Bool.and_eq_true] at hrun24
        obtain ⟨⟨h2, h4⟩, hall⟩ := hrun24
        rw [decide_eq_true_eq] at h2 h4
        rw [List.length_drop] at h2 h4
        have htrue : claimEndsInUpperRun s.data = true := by
          unfold claimEndsInUpperRun
          apply List.any_eq_true.mpr
          refine ⟨s.data.length - i, ?_, ?_⟩
          · have : s.data.length - i = 2 ∨ s.data.length - i = 3 ∨
                s.data.length - i = 4 := by omega
            rcases this with he | he | he <;> rw [he] <;> decide
          · rw [Bool.and_eq_true]
            constructor
            · rw [decide_eq_true_eq]
              omega
            · have hii : s.data.length - (s.data.length - i) = i := by omega
              rw [hii]
              exact hall
        rw [htrue] at hrun
        cases hrun
    show (String.mk (extractPT s.data).1, String.mk (extractPT s.data).2) = (s, "")
    unfold extractPT
    rw [hcont]
    simp only [Bool.false_eq_true, if_false]
    rw [hm3]

/-- Witness for C9 at a concrete slash-free, lowercase-ending input. -/
theorem extract_split_lossless_witness :
    extract_player_name_and_team "john doe" = ("john doe", "") :=
  (extract_split_lossless "john doe").2 (by decide) (by decide)

/-- C7: the column order of every frame written by the ESPN merge is the
priority names `RK`, `Player`, `Team` first, then the remaining names of the
union of the new and the persisted columns in lexical order, then `Year` last
(stated for the merge branch and the fresh branch; the priority names and
`Year` are always present in frames the scraper produces). -/
theorem nba_column_order :
    (∀ (ex df out : DF), nba_append (some ex) df = some out → pdEmpty ex = false →
      "RK" ∈ df.cols ++ ex.cols → "Player" ∈ df.cols ++ ex.cols →
      "Team" ∈ df.cols ++ ex.cols → "Year" ∈ df.cols ++ ex.cols →
      out.cols = nbaOrderSpec (df.cols ++ ex.cols)) ∧
    (∀ (df out : DF), nba_append none df = some out → df.cols.Nodup →
      "RK" ∈ df.cols → "Player" ∈ df.cols → "Team" ∈ df.cols → "Year" ∈ df.cols →
      out.cols = nbaOrderSpec df.cols) := by
  constructor
  · intro ex df out h hne hRK hP hT hY
    rw [nba_append_some] at h
    by_cases hd : pdEmpty df
    · rw [if_pos hd] at h
      cases h
    · rw [if_neg hd, if_neg (by rw [hne]; exact Bool.false_ne_true)] at h
      cases h
      rw [nbaMerge_cols]
      have hmem : ∀ c, c ∈ sortStrings ((df.cols ++ ex.cols).dedup) ↔
          c ∈ df.cols ++ ex.cols :=
        fun c => mem_sortStrings.trans List.mem_dedup
      rw [nbaOrder_of_present ((hmem _).mpr hRK) ((hmem _).mpr hP)
        ((hmem _).mpr hT) ((hmem _).mpr hY)]
      unfold nbaOrderSpec
      rw [sortStrings_eq_of_perm
        ((sortStrings_perm ((df.cols ++ ex.cols).dedup)).filter _)]
      simp [prioCols, List.append_assoc]
  · intro df out h hnd hRK hP hT hY
    unfold nba_append at h
    by_cases hd : pdEmpty df
    · rw [if_pos hd] at h
      cases h
    · rw [if_neg hd] at h
      cases h
      show (nbaOrder df.cols) = nbaOrderSpec df.cols
      rw [nbaOrder_of_present hRK hP hT hY]
      unfold nbaOrderSpec
      rw [List.dedup_eq_self.mpr hnd]
      simp [prioCols, List.append_assoc]

/-- Witness for C7 on concrete frames, one per branch. -/
theorem nba_column_order_witness :
    (nbaMerge ⟨["RK", "Player", "Team", "AST", "Year"],
        [[Cell.str "1", Cell.str "b", Cell.str "BOS", Cell.str "9", Cell.int 2023]]⟩
      ⟨["RK", "Player", "Team", "PTS", "Year"],
        [[Cell.str "1", Cell.str "a", Cell.str "MIA", Cell.str "30", Cell.int 2024]]⟩).cols =
      nbaOrderSpec (["RK", "Player", "Team", "PTS", "Year"] ++
        ["RK", "Player", "Team", "AST", "Year"]) ∧
    (nbaFresh ⟨["RK", "Player", "Team", "PTS", "Year"],
        [[Cell.str "1", Cell.str "a", Cell.str "MIA", Cell.str "30", Cell.int 2024]]⟩).cols =
      nbaOrderSpec ["RK", "Player", "Team", "PTS", "Year"] :=
  ⟨nba_column_order.1
      ⟨["RK", "Player", "Team", "AST", "Year"],
        [[Cell.str "1", Cell.str "b", Cell.str "BOS", Cell.str "9", Cell.int 2023]]⟩
      ⟨["RK", "Player", "Team", "PTS", "Year"],
        [[Cell.str "1", Cell.str "a", Cell.str "MIA", Cell.str "30", Cell.int 2024]]⟩
      _ rfl rfl (by decide) (by decide) (by decide) (by decide),
   nba_column_order.2
      ⟨["RK", "Player", "Team", "PTS", "Year"],
        [[Cell.str "1", Cell.str "a", Cell.str "MIA", Cell.str "30", Cell.int 2024]]⟩
      _ rfl (by decide) (by decide) (by decide) (by decide) (by decide)⟩

theorem year_mem_of_rows {df : DF} (hwf : df.WF) (hne : df.rows ≠ []) (Y : Int)
    (hY : ∀ r ∈ df.rows, rowGetC df.cols r "Year" = Cell.int Y) :
    "Year" ∈ df.cols := by
  rcases hrr : df.rows with _ | ⟨r0, rest⟩
  · exact absurd hrr hne
  · by_contra hmem
    have h0 : r0 ∈ df.rows := by
      rw [hrr]
      exact List.mem_cons_self _ _
    have hv := hY r0 h0
    rw [rowGetC, colIdx_of_not_mem hmem,
      List.getD_eq_default _ _ (by rw [hwf r0 h0])] at hv
    cases hv

theorem pdEmpty_eq_rows {d : DF} (hc : d.cols ≠ []) : pdEmpty d = d.rows.isEmpty := by
  unfold pdEmpty
  rcases hcc : d.cols with _ | ⟨a, l⟩
  · exact absurd hcc hc
  · simp [List.isEmpty]

theorem yearToAppend_norm {df : DF} (hwf : df.WF) (Y : Int) (r0 : List Cell)
    (rest : List (List Cell)) (hrr : df.rows = r0 :: rest)
    (h0 : rowGetC df.cols r0 "Year" = Cell.int Y) (cs order : List String)
    (hY : "Year" ∈ order) :
    yearToAppend (selectCols (ensureCols df cs) order) = some (Cell.int Y) := by
  unfold yearToAppend
  rw [show (selectCols (ensureCols df cs) order).cols = order from rfl,
    if_pos ((contains_iff_mem _ _).mpr hY), norm_rows hwf cs order, hrr, List.map_cons]
  simp only [rowGetC_map_order hY, h0]

theorem selectCols_cols (d : DF) (o : List String) : (selectCols d o).cols = o := rfl

theorem concatRows_rows (a b : DF) : (concatRows a b).rows = a.rows ++ b.rows := rfl

theorem filterYearNe_rows (d : DF) (y : Cell) :
    (filterYearNe d y).rows =
      d.rows.filter (fun r => cellNe (rowGetC d.cols r "Year") y) := rfl

theorem filterYearNe_cols (d : DF) (y : Cell) : (filterYearNe d y).cols = d.cols := rfl

theorem dropYear_some (d : DF) (y : Cell) : dropYear d (some y) = filterYearNe d y := rfl

theorem nbaMerge_eq (ex df : DF) :
    nbaMerge ex df =
      concatRows
        (dropYear
          (selectCols (ensureCols ex (sortStrings ((df.cols ++ ex.cols).dedup)))
            (nbaOrder (sortStrings ((df.cols ++ ex.cols).dedup))))
          (yearToAppend
            (selectCols (ensureCols df (sortStrings ((df.cols ++ ex.cols).dedup)))
              (nbaOrder (sortStrings ((df.cols ++ ex.cols).dedup))))))
        (selectCols (ensureCols df (sortStrings ((df.cols ++ ex.cols).dedup)))
          (nbaOrder (sortStrings ((df.cols ++ ex.cols).dedup)))) := rfl

/-- C2: merging records for season `Y` never alters records of other seasons.
For source A (whose persisted frames carry exactly the whitelisted columns)
the untouched records reappear identically, in their original relative order,
as a prefix of the merged frame.  For source B each untouched record reappears
at the same prefix position with every field it had preserved and every newly
introduced column explicitly null. -/
theorem season_isolation :
    (∀ (ex df : DF) (Y : Int), ex.cols = btColsYear → ex.WF → df.WF →
      df.rows ≠ [] → (∀ r ∈ df.rows, rowGetC df.cols r "Year" = Cell.int Y) →
      (bt_append (some ex) df).rows.length =
        (ex.rows.filter
          (fun r => cellNe (rowGetC ex.cols r "Year") (Cell.int Y))).length
          + df.rows.length ∧
      (bt_append (some ex) df).rows.take
          (ex.rows.filter
            (fun r => cellNe (rowGetC ex.cols r "Year") (Cell.int Y))).length =
        ex.rows.filter (fun r => cellNe (rowGetC ex.cols r "Year") (Cell.int Y))) ∧
    (∀ (ex df out : DF) (Y : Int), ex.WF → df.WF → ex.cols ≠ [] → df.rows ≠ [] →
      (∀ r ∈ df.rows, rowGetC df.cols r "Year" = Cell.int Y) →
      nba_append (some ex) df = some out →
      out.rows.length =
        (ex.rows.filter
          (fun r => cellNe (rowGetC ex.cols r "Year") (Cell.int Y))).length
          + df.rows.length ∧
      (∀ j, j < (ex.rows.filter
            (fun r => cellNe (rowGetC ex.cols r "Year") (Cell.int Y))).length →
        ∀ c ∈ out.cols,
          rowGetC out.cols (out.rows.getD j []) c =
            if c ∈ ex.cols then
              rowGetC ex.cols
                ((ex.rows.filter
                  (fun r => cellNe (rowGetC ex.cols r "Year") (Cell.int Y))).getD j []) c
            else Cell.null)) := by
  constructor
  · intro ex df Y hcols hwfe hwfd hne hY
    have hcne : ex.cols ≠ [] := by
      rw [hcols]
      decide
    rcases hrr : df.rows with _ | ⟨r0, rest⟩
    · exact absurd hrr hne
    have h0 : rowGetC df.cols r0 "Year" = Cell.int Y :=
      hY r0 (by rw [hrr]; exact List.mem_cons_self _ _)
    by_cases hre : ex.rows = []
    · have hpe : pdEmpty ex = true := by
        rw [pdEmpty_eq_rows hcne, hre]
        rfl
      rw [bt_append_some, if_pos hpe, hre]
      constructor
      · simp [bt_normalize_rows hwfd, hrr]
      · simp
    · have hpe : pdEmpty ex = false := by
        rw [pdEmpty_eq_rows hcne]
        rcases hxe : ex.rows with _ | _
        · exact absurd hxe hre
        · rfl
      rw [bt_append_some, if_neg (by rw [hpe]; exact Bool.false_ne_true),
        bt_normalize_self hcols hwfe]
      simp only [bt_normalize]
      rw [yearToAppend_norm hwfd Y r0 rest hrr h0 btColsYear btColsYear (by decide),
        dropYear_some]
      constructor
      · simp only [concatRows_rows, filterYearNe_rows, List.length_append]
        rw [norm_rows hwfd, hrr]
        simp
      · simp only [concatRows_rows, filterYearNe_rows]
        exact List.take_left _ _
  · intro ex df out Y hwfe hwfd hcne hne hY hap
    have hYdf : "Year" ∈ df.cols := year_mem_of_rows hwfd hne Y hY
    have hdne : pdEmpty df = false := by
      rw [pdEmpty_eq_rows (fun hh => by rw [hh] at hYdf; cases hYdf)]
      rcases hdd : df.rows with _ | _
      · exact absurd hdd hne
      · rfl
    rw [nba_append_some, if_neg (by rw [hdne]; exact Bool.false_ne_true)] at hap
    by_cases hpe : pdEmpty ex
    · have hre : ex.rows = [] := by
        rw [pdEmpty_eq_rows hcne] at hpe
        exact List.isEmpty_iff.mp hpe
      rw [if_pos hpe] at hap
      cases hap
      rw [hre]
      constructor
      · simp [nbaFresh, selectCols]
      · intro j hj
        simp at hj
    · rw [if_neg hpe] at hap
      cases hap
      have hall_nodup : (sortStrings ((df.cols ++ ex.cols).dedup)).Nodup :=
        sortStrings_nodup (List.nodup_dedup _)
      have hord_nodup : (nbaOrder (sortStrings ((df.cols ++ ex.cols).dedup))).Nodup :=
        nodup_nbaOrder hall_nodup
      have hYord : "Year" ∈ nbaOrder (sortStrings ((df.cols ++ ex.cols).dedup)) :=
        mem_nbaOrder.mpr (mem_sortStrings.mpr (List.mem_dedup.mpr
          (List.mem_append.mpr (Or.inl hYdf))))
      rcases hrr : df.rows with _ | ⟨r0, rest⟩
      · exact absurd hrr hne
      have h0 : rowGetC df.cols r0 "Year" = Cell.int Y :=
        hY r0 (by rw [hrr]; exact List.mem_cons_self _ _)
      rw [nbaMerge_eq,
        yearToAppend_norm hwfd Y r0 rest hrr h0 _ _ hYord, dropYear_some]
      simp only [concatRows_rows, concatRows_cols, filterYearNe_rows,
        filterYearNe_cols, selectCols_cols]
      rw [norm_rows hwfe, norm_rows hwfd, List.filter_map]
      simp only [Function.comp_def, rowGetC_map_order hYord]
      constructor
      · rw [List.length_append, List.length_map, List.length_map, hrr]
      · intro j hj c hc
        rw [List.getD_append _ _ _ _ (by simpa using hj)]
        have hgd : ∀ gE : List Cell → List Cell,
            ((ex.rows.filter
              (fun r => cellNe (rowGetC ex.cols r "Year") (Cell.int Y))).map gE).getD j [] =
            gE ((ex.rows.filter
              (fun r => cellNe (rowGetC ex.cols r "Year") (Cell.int Y))).getD j []) := by
          intro gE
          rw [List.getD_eq_getElem _ _ (by simpa using hj), List.getElem_map,
            List.getD_eq_getElem _ _ hj]
        rw [hgd]
        rw [rowGetC_map_order hc]
        by_cases hcx : c ∈ ex.cols
        · rw [if_pos hcx]
        · rw [if_neg hcx]
          have hu : (ex.rows.filter
              (fun r => cellNe (rowGetC ex.cols r "Year") (Cell.int Y))).getD j [] ∈ ex.rows := by
            apply List.mem_of_mem_filter
            rw [List.getD_eq_getElem _ _ hj]
            exact List.getElem_mem _
          rw [rowGetC, colIdx_of_not_mem hcx,
            List.getD_eq_default _ _ (by rw [hwfe _ hu])]

/-- Witness for C2 on concrete frames: one prior-season record survives each
merge, giving two rows in total. -/
theorem season_isolation_witness :
    (bt_append (some ⟨btColsYear, [List.replicate 22 (Cell.str "v") ++ [Cell.int 2023]]⟩)
        ⟨["Year"], [[Cell.int 2024]]⟩).rows.length = 2 ∧
    (nbaMerge ⟨["Year"], [[Cell.int 2023]]⟩ ⟨["Year"], [[Cell.int 2024]]⟩).rows.length = 2 := by
  constructor
  · have h := (season_isolation.1
      ⟨btColsYear, [List.replicate 22 (Cell.str "v") ++ [Cell.int 2023]]⟩
      ⟨["Year"], [[Cell.int 2024]]⟩ 2024 rfl (by unfold DF.WF; decide)
      (by unfold DF.WF; decide) (by decide) (by decide)).1
    rw [h]
    decide
  · have h := (season_isolation.2 ⟨["Year"], [[Cell.int 2023]]⟩
      ⟨["Year"], [[Cell.int 2024]]⟩
      (nbaMerge ⟨["Year"], [[Cell.int 2023]]⟩ ⟨["Year"], [[Cell.int 2024]]⟩) 2024
      (by unfold DF.WF; decide) (by unfold DF.WF; decide) (by decide) (by decide)
      (by decide) rfl).1
    rw [h]
    decide

theorem DF.ext {a b : DF} (h1 : a.cols = b.cols) (h2 : a.rows = b.rows) : a = b := by
  cases a
  cases b
  cases h1
  cases h2
  rfl

theorem yearToAppend_rows {d : DF} (Y : Int) (hcols : "Year" ∈ d.cols)
    (r0 : List Cell) (rest : List (List Cell)) (hrr : d.rows = r0 :: rest)
    (h0 : rowGetC d.cols r0 "Year" = Cell.int Y) :
    yearToAppend d = some (Cell.int Y) := by
  unfold yearToAppend
  rw [if_pos ((contains_iff_mem _ _).mpr hcols), hrr]
  simp only [h0]

theorem cellNe_int_self (Y : Int) : cellNe (Cell.int Y) (Cell.int Y) = false := by
  simp [cellNe]

theorem bt_append_fix (df W : DF) (Y : Int) (hc : W.cols = btColsYear) (hw : W.WF)
    (hwfd : df.WF) (r0 : List Cell) (rest : List (List Cell))
    (hrr : df.rows = r0 :: rest) (h0 : rowGetC df.cols r0 "Year" = Cell.int Y)
    (hsplit : W.rows =
      W.rows.filter (fun r => cellNe (rowGetC W.cols r "Year") (Cell.int Y)) ++
        (bt_normalize df).rows) :
    bt_append (some W) df = W := by
  have hrne : W.rows ≠ [] := by
    rw [hsplit]
    intro hnil
    have h2 := (List.append_eq_nil.mp hnil).2
    rw [bt_normalize_rows hwfd, hrr] at h2
    cases h2
  have hpe : pdEmpty W = false := by
    rw [pdEmpty_eq_rows (by rw [hc]; decide)]
    rcases hxe : W.rows with _ | _
    · exact absurd hxe hrne
    · rfl
  rw [bt_append_some, if_neg (by rw [hpe]; exact Bool.false_ne_true),
    bt_normalize_self hc hw]
  simp only [bt_normalize] at hsplit ⊢
  rw [yearToAppend_norm hwfd Y r0 rest hrr h0 btColsYear btColsYear (by decide),
    dropYear_some]
  apply DF.ext
  · rw [concatRows_cols, filterYearNe_cols, hc]
  · rw [concatRows_rows, filterYearNe_rows]
    exact hsplit.symm

theorem bt_normalize_filter_nil {df : DF} (Y : Int) (hwfd : df.WF)
    (hY : ∀ r ∈ df.rows, rowGetC df.cols r "Year" = Cell.int Y) :
    (bt_normalize df).rows.filter
      (fun r => cellNe (rowGetC (bt_normalize df).cols r "Year") (Cell.int Y)) = [] := by
  rw [bt_normalize_cols, bt_normalize_rows hwfd]
  apply List.filter_eq_nil_iff.mpr
  intro r hr
  obtain ⟨rr, hrr, rfl⟩ := List.mem_map.mp hr
  rw [rowGetC_map_order (by decide), hY rr hrr, cellNe_int_self]
  exact Bool.false_ne_true

theorem bt_normalize_filter_nil2 {df : DF} (Y : Int) (hwfd : df.WF)
    (hY : ∀ r ∈ df.rows, rowGetC df.cols r "Year" = Cell.int Y) :
    (bt_normalize df).rows.filter
      (fun r => cellNe (rowGetC btColsYear r "Year") (Cell.int Y)) = [] := by
  rw [bt_normalize_rows hwfd]
  apply List.filter_eq_nil_iff.mpr
  intro r hr
  obtain ⟨rr, hrr, rfl⟩ := List.mem_map.mp hr
  rw [rowGetC_map_order (by decide), hY rr hrr, cellNe_int_self]
  exact Bool.false_ne_true

theorem filter_idem_cells (l : List (List Cell)) (p : List Cell → Bool) :
    (l.filter p).filter p = l.filter p :=
  List.filter_eq_self.mpr (fun _ ha => List.of_mem_filter ha)

theorem bt_rerun_idem (ex : Option DF) (df : DF) (Y : Int) (hwfd : df.WF)
    (hne : df.rows ≠ []) (hY : ∀ r ∈ df.rows, rowGetC df.cols r "Year" = Cell.int Y) :
    bt_append (some (bt_append ex df)) df = bt_append ex df := by
  rcases hrr : df.rows with _ | ⟨r0, rest⟩
  · exact absurd hrr hne
  have h0 : rowGetC df.cols r0 "Year" = Cell.int Y :=
    hY r0 (by rw [hrr]; exact List.mem_cons_self _ _)
  have hsplit0 : (bt_normalize df).rows =
      (bt_normalize df).rows.filter
        (fun r => cellNe (rowGetC (bt_normalize df).cols r "Year") (Cell.int Y)) ++
        (bt_normalize df).rows := by
    rw [bt_normalize_filter_nil Y hwfd hY, List.nil_append]
  cases ex with
  | none =>
    exact bt_append_fix df (bt_normalize df) Y rfl (bt_normalize_WF df) hwfd r0 rest
      hrr h0 hsplit0
  | some e =>
    by_cases hpe : pdEmpty e
    · have hR1 : bt_append (some e) df = bt_normalize df := by
        rw [bt_append_some, if_pos hpe]
      rw [hR1]
      exact bt_append_fix df (bt_normalize df) Y rfl (bt_normalize_WF df) hwfd r0 rest
        hrr h0 hsplit0
    · have hR1 : bt_append (some e) df =
          concatRows (filterYearNe (bt_normalize e) (Cell.int Y)) (bt_normalize df) := by
        rw [bt_append_some, if_neg hpe]
        simp only [bt_normalize]
        rw [yearToAppend_norm hwfd Y r0 rest hrr h0 btColsYear btColsYear (by decide),
          dropYear_some]
      rw [hR1]
      apply bt_append_fix df _ Y ?_ ?_ hwfd r0 rest hrr h0 ?_
      · rw [concatRows_cols, filterYearNe_cols, bt_normalize_cols]
      · exact concatRows_WF (filterYearNe_WF _ (bt_normalize_WF e)) (bt_normalize_WF df)
          ((bt_normalize_cols df).trans
            ((bt_normalize_cols e).symm.trans (filterYearNe_cols _ _).symm))
      · rw [concatRows_rows, concatRows_cols, filterYearNe_rows, filterYearNe_cols,
          bt_normalize_cols, List.filter_append, filter_idem_cells,
          bt_normalize_filter_nil2 Y hwfd hY, List.append_nil]

theorem nbaFresh_cols (df : DF) : (nbaFresh df).cols = nbaOrder df.cols := rfl

theorem select_filter_nil {df : DF} (Y : Int)
    (hY : ∀ r ∈ df.rows, rowGetC df.cols r "Year" = Cell.int Y)
    (order : List String) (hYo : "Year" ∈ order) :
    (selectCols df order).rows.filter
      (fun r => cellNe (rowGetC order r "Year") (Cell.int Y)) = [] := by
  apply List.filter_eq_nil_iff.mpr
  intro r hr
  simp only [selectCols] at hr
  obtain ⟨rr, hrr, rfl⟩ := List.mem_map.mp hr
  rw [rowGetC_map_order hYo, hY rr hrr, cellNe_int_self]
  exact Bool.false_ne_true

theorem norm_select_filter_nil {df : DF} (Y : Int) (hwfd : df.WF)
    (hY : ∀ r ∈ df.rows, rowGetC df.cols r "Year" = Cell.int Y)
    (cs order : List String) (hYo : "Year" ∈ order) :
    (selectCols (ensureCols df cs) order).rows.filter
      (fun r => cellNe (rowGetC order r "Year") (Cell.int Y)) = [] := by
  rw [norm_rows hwfd]
  apply List.filter_eq_nil_iff.mpr
  intro r hr
  obtain ⟨rr, hrr, rfl⟩ := List.mem_map.mp hr
  rw [rowGetC_map_order hYo, hY rr hrr, cellNe_int_self]
  exact Bool.false_ne_true

theorem nbaMerge_fix (df W : DF) (Y : Int) (hndW : W.cols.Nodup) (hwfW : W.WF)
    (hwfd : df.WF) (r0 : List Cell) (rest : List (List Cell))
    (hrr : df.rows = r0 :: rest) (h0 : rowGetC df.cols r0 "Year" = Cell.int Y)
    (hYW : "Year" ∈ W.cols)
    (hord : nbaOrder (sortStrings ((df.cols ++ W.cols).dedup)) = W.cols)
    (hens : ensureCols W (sortStrings ((df.cols ++ W.cols).dedup)) = W)
    (hsplit : W.rows =
      W.rows.filter (fun r => cellNe (rowGetC W.cols r "Year") (Cell.int Y)) ++
      (selectCols (ensureCols df (sortStrings ((df.cols ++ W.cols).dedup))) W.cols).rows) :
    nbaMerge W df = W := by
  rw [nbaMerge_eq, hord, hens, @selectCols_self W hndW hwfW,
    yearToAppend_norm hwfd Y r0 rest hrr h0 _ _ hYW, dropYear_some]
  apply DF.ext
  · rw [concatRows_cols, filterYearNe_cols]
  · rw [concatRows_rows, filterYearNe_rows]
    exact hsplit.symm

theorem nba_rerun_idem (ex : Option DF) (df out : DF) (Y : Int) (hwfd : df.WF)
    (hnd : df.cols.Nodup) (hne : df.rows ≠ [])
    (hY : ∀ r ∈ df.rows, rowGetC df.cols r "Year" = Cell.int Y)
    (hap : nba_append ex df = some out) :
    nba_append (some out) df = some out := by
  have hYdf : "Year" ∈ df.cols := year_mem_of_rows hwfd hne Y hY
  have hdne : pdEmpty df = false := by
    rw [pdEmpty_eq_rows (fun hh => by rw [hh] at hYdf; cases hYdf)]
    rcases hdd : df.rows with _ | _
    · exact absurd hdd hne
    · rfl
  rcases hrr : df.rows with _ | ⟨r0, rest⟩
  · exact absurd hrr hne
  have h0 : rowGetC df.cols r0 "Year" = Cell.int Y :=
    hY r0 (by rw [hrr]; exact List.mem_cons_self _ _)
  have hYo1 : "Year" ∈ nbaOrder df.cols := mem_nbaOrder.mpr hYdf
  have hfreshgoal : nba_append (some (nbaFresh df)) df = some (nbaFresh df) := by
    have hallf : sortStrings ((df.cols ++ (nbaFresh df).cols).dedup) =
        sortStrings df.cols := by
      refine (sortStrings_dedup_eq_of_mem_iff ?_).trans
        (by rw [List.dedup_eq_self.mpr hnd])
      intro c
      constructor
      · intro hc
        rcases List.mem_append.mp hc with h | h
        · exact h
        · exact mem_nbaOrder.mp h
      · exact fun h => List.mem_append.mpr (Or.inl h)
    have hpeW : pdEmpty (nbaFresh df) = false := by
      rw [pdEmpty_eq_rows (by rw [nbaFresh_cols]; exact List.ne_nil_of_mem hYo1)]
      rcases hxe : (nbaFresh df).rows with _ | _
      · exfalso
        have : (nbaFresh df).rows = df.rows.map
            (fun r => (nbaOrder df.cols).map (fun c => rowGetC df.cols r c)) := rfl
        rw [this, hrr] at hxe
        cases hxe
      · rfl
    rw [nba_append_some, if_neg (by rw [hdne]; exact Bool.false_ne_true),
      if_neg (by rw [hpeW]; exact Bool.false_ne_true)]
    apply congrArg some
    apply nbaMerge_fix df (nbaFresh df) Y
      (by rw [nbaFresh_cols]; exact nodup_nbaOrder hnd)
      (selectCols_WF _ _) hwfd r0 rest hrr h0
      (by rw [nbaFresh_cols]; exact hYo1) ?_ ?_ ?_
    · rw [hallf, nbaOrder_congr_perm (sortStrings_perm df.cols), nbaFresh_cols]
    · rw [hallf]
      exact ensureCols_eq_self (fun c hc => mem_nbaOrder.mpr (mem_sortStrings.mp hc))
    · rw [hallf, ensureCols_eq_self (fun c hc => mem_sortStrings.mp hc), nbaFresh_cols]
      rw [show (nbaFresh df).rows = (selectCols df (nbaOrder df.cols)).rows from rfl,
        select_filter_nil Y hY _ hYo1, List.nil_append]
  cases ex with
  | none =>
    rw [nba_append_none, if_neg (by rw [hdne]; exact Bool.false_ne_true)] at hap
    cases hap
    exact hfreshgoal
  | some e =>
    rw [nba_append_some, if_neg (by rw [hdne]; exact Bool.false_ne_true)] at hap
    by_cases hpe : pdEmpty e
    · rw [if_pos hpe] at hap
      cases hap
      exact hfreshgoal
    · rw [if_neg hpe] at hap
      cases hap
      have hYo1e : "Year" ∈ nbaOrder (sortStrings ((df.cols ++ e.cols).dedup)) :=
        mem_nbaOrder.mpr (mem_sortStrings.mpr (List.mem_dedup.mpr
          (List.mem_append.mpr (Or.inl hYdf))))
      have hM : nbaMerge e df =
          concatRows
            (filterYearNe
              (selectCols (ensureCols e (sortStrings ((df.cols ++ e.cols).dedup)))
                (nbaOrder (sortStrings ((df.cols ++ e.cols).dedup))))
              (Cell.int Y))
            (selectCols (ensureCols df (sortStrings ((df.cols ++ e.cols).dedup)))
              (nbaOrder (sortStrings ((df.cols ++ e.cols).dedup)))) := by
        rw [nbaMerge_eq, yearToAppend_norm hwfd Y r0 rest hrr h0 _ _ hYo1e,
          dropYear_some]
      rw [hM]
      have hMcols : (concatRows
          (filterYearNe
            (selectCols (ensureCols e (sortStrings ((df.cols ++ e.cols).dedup)))
              (nbaOrder (sortStrings ((df.cols ++ e.cols).dedup))))
            (Cell.int Y))
          (selectCols (ensureCols df (sortStrings ((df.cols ++ e.cols).dedup)))
            (nbaOrder (sortStrings ((df.cols ++ e.cols).dedup))))).cols =
          nbaOrder (sortStrings ((df.cols ++ e.cols).dedup)) := by
        rw [concatRows_cols, filterYearNe_cols, selectCols_cols]
      have hndO1 : (nbaOrder (sortStrings ((df.cols ++ e.cols).dedup))).Nodup :=
        nodup_nbaOrder (sortStrings_nodup (List.nodup_dedup _))
      have hwfM : (concatRows
          (filterYearNe
            (selectCols (ensureCols e (sortStrings ((df.cols ++ e.cols).dedup)))
              (nbaOrder (sortStrings ((df.cols ++ e.cols).dedup))))
            (Cell.int Y))
          (selectCols (ensureCols df (sortStrings ((df.cols ++ e.cols).dedup)))
            (nbaOrder (sortStrings ((df.cols ++ e.cols).dedup))))).WF :=
        concatRows_WF (filterYearNe_WF _ (selectCols_WF _ _)) (selectCols_WF _ _)
          (by rw [filterYearNe_cols]; rfl)
      have hpeM : pdEmpty (concatRows
          (filterYearNe
            (selectCols (ensureCols e (sortStrings ((df.cols ++ e.cols).dedup)))
              (nbaOrder (sortStrings ((df.cols ++ e.cols).dedup))))
            (Cell.int Y))
          (selectCols (ensureCols df (sortStrings ((df.cols ++ e.cols).dedup)))
            (nbaOrder (sortStrings ((df.cols ++ e.cols).dedup))))) = false := by
        rw [pdEmpty_eq_rows (by rw [hMcols]; exact List.ne_nil_of_mem hYo1e)]
        rw [concatRows_rows]
        rcases hxe : (filterYearNe
            (selectCols (ensureCols e (sortStrings ((df.cols ++ e.cols).dedup)))
              (nbaOrder (sortStrings ((df.cols ++ e.cols).dedup))))
            (Cell.int Y)).rows ++ (selectCols
              (ensureCols df (sortStrings ((df.cols ++ e.cols).dedup)))
              (nbaOrder (sortStrings ((df.cols ++ e.cols).dedup)))).rows with _ | _
        · exfalso
          have h2 := (List.append_eq_nil.mp hxe).2
          rw [norm_rows hwfd, hrr] at h2
          cases h2
        · rfl
      rw [nba_append_some, if_neg (by rw [hdne]; exact Bool.false_ne_true),
        if_neg (by rw [hpeM]; exact Bool.false_ne_true)]
      apply congrArg some
      have hall2 : sortStrings ((df.cols ++ (concatRows
          (filterYearNe
            (selectCols (ensureCols e (sortStrings ((df.cols ++ e.cols).dedup)))
              (nbaOrder (sortStrings ((df.cols ++ e.cols).dedup))))
            (Cell.int Y))
          (selectCols (ensureCols df (sortStrings ((df.cols ++ e.cols).dedup)))
            (nbaOrder (sortStrings ((df.cols ++ e.cols).dedup))))).cols).dedup) =
          sortStrings ((df.cols ++ e.cols).dedup) := by
        apply sortStrings_dedup_eq_of_mem_iff
        intro c
        simp only [List.mem_append, hMcols, mem_nbaOrder, mem_sortStrings,
          List.mem_dedup]
        tauto
      apply nbaMerge_fix df _ Y (by rw [hMcols]; exact hndO1) hwfM hwfd r0 rest hrr h0
        (by rw [hMcols]; exact hYo1e) ?_ ?_ ?_
      · rw [hall2]
        exact hMcols.symm
      · rw [hall2]
        exact ensureCols_eq_self (fun c hc => by rw [hMcols]; exact mem_nbaOrder.mpr hc)
      · rw [hall2, hMcols, concatRows_rows, filterYearNe_rows, selectCols_cols,
          List.filter_append, filter_idem_cells,
          norm_select_filter_nil Y hwfd hY _ _ hYo1e, List.append_nil]

/-- C1: rerunning a season merge is idempotent for both sources: when every new
record carries the same year `Y` and there is at least one, merging the same
records a second time (starting from the result of the first merge) returns
exactly the first merge's frame — the rerun replaces the season instead of
duplicating it. -/
theorem rerun_idempotent :
    (∀ (ex : Option DF) (df : DF) (Y : Int), df.WF → df.rows ≠ [] →
      (∀ r ∈ df.rows, rowGetC df.cols r "Year" = Cell.int Y) →
      bt_append (some (bt_append ex df)) df = bt_append ex df) ∧
    (∀ (ex : Option DF) (df out : DF) (Y : Int), df.WF → df.cols.Nodup →
      df.rows ≠ [] → (∀ r ∈ df.rows, rowGetC df.cols r "Year" = Cell.int Y) →
      nba_append ex df = some out → nba_append (some out) df = some out) :=
  ⟨fun ex df Y h1 h2 h3 => bt_rerun_idem ex df Y h1 h2 h3,
   fun ex df out Y h1 h2 h3 h4 h5 => nba_rerun_idem ex df out Y h1 h2 h3 h4 h5⟩

/-- Witness for C1 on concrete one-row frames for both sources. -/
theorem rerun_idempotent_witness :
    bt_append (some (bt_append none ⟨["Year"], [[Cell.int 2024]]⟩))
        ⟨["Year"], [[Cell.int 2024]]⟩ =
      bt_append none ⟨["Year"], [[Cell.int 2024]]⟩ ∧
    nba_append (some (nbaFresh ⟨["RK", "Player", "Team", "Year"],
        [[Cell.str "1", Cell.str "a", Cell.str "b", Cell.int 2024]]⟩))
        ⟨["RK", "Player", "Team", "Year"],
          [[Cell.str "1", Cell.str "a", Cell.str "b", Cell.int 2024]]⟩ =
      some (nbaFresh ⟨["RK", "Player", "Team", "Year"],
        [[Cell.str "1", Cell.str "a", Cell.str "b", Cell.int 2024]]⟩) :=
  ⟨rerun_idempotent.1 none ⟨["Year"], [[Cell.int 2024]]⟩ 2024
      (by unfold DF.WF; decide) (by decide) (by decide),
   rerun_idempotent.2 none ⟨["RK", "Player", "Team", "Year"],
        [[Cell.str "1", Cell.str "a", Cell.str "b", Cell.int 2024]]⟩
      (nbaFresh ⟨["RK", "Player", "Team", "Year"],
        [[Cell.str "1", Cell.str "a", Cell.str "b", Cell.int 2024]]⟩) 2024
      (by unfold DF.WF; decide) (by decide) (by decide) (by decide) rfl⟩
